import Mathlib

/-!
Verification of the ytmusicjson harvesting pipeline.

Shallow embedding of the repository's Python scripts:
  scripts/fetch_youtube_links.py        (primary keyed-store pipeline)
  scripts/fetch_youtube_links_2.py      (variant; same pass structure)
  scripts/fetch_artist_ids_verified.py  (confidence-scored identity resolution)
  scripts/246_scrape/scrape_24six_metadata.py (scraper; atomic save, retries)

Python strings are modelled as `List Char`.  `lower` / the regex character
class `\w` are modelled over the ASCII fragment (all inputs used in the
theorems below are ASCII).  External collaborators (yt-dlp network results,
HTTP responses, difflib similarity ratios) are modelled as oracle
parameters, exactly at the boundary at which the scripts consume them.
-/

namespace Ytm

/- Batteries marks the ℚ arithmetic operations `@[irreducible]`, which
blocks `decide`/`rfl` evaluation of the confidence model on concrete
inputs; restore the default reducibility for this development. -/
attribute [local semireducible] Rat.inv Rat.mul Rat.add Rat.sub

/-- Python `str` as a list of characters. -/
abbrev Str := List Char

/-- Shorthand turning a Lean string literal into the `List Char` model. -/
def str (s : String) : Str := s.toList

/-- Python `str.lower()` (ASCII fragment). -/
def lowerStr (s : Str) : Str := s.map Char.toLower

/-- The regex class `\w` of `re.sub(r'[^\w\s]', ' ', text)` (ASCII fragment:
letters, digits, underscore). -/
def isWordChar (c : Char) : Bool := c.isAlphanum || c = '_'

/-- The regex class `\s` (ASCII whitespace). -/
def isSpaceChar (c : Char) : Bool := c = ' ' || c = '\t' || c = '\n' || c = '\r'

/-- Helper for `str.split()`: accumulate the current word (reversed). -/
def wordsAux : Str → Str → List Str
  | [], cur => if cur = [] then [] else [cur.reverse]
  | c :: rest, cur =>
      if isSpaceChar c then
        if cur = [] then wordsAux rest [] else cur.reverse :: wordsAux rest []
      else wordsAux rest (c :: cur)

/-- Python `text.split()` (split on whitespace, dropping empties). -/
def splitWords (s : Str) : List Str := wordsAux s []

/-- Python `' '.join(words)`. -/
def joinWords : List Str → Str
  | [] => []
  | [w] => w
  | w :: ws => w ++ ' ' :: joinWords ws

/-- `clean` from `validate_match` (fetch_youtube_links.py lines 68-70):
replace every non-word, non-space character by a space, then collapse
whitespace via `' '.join(text.split())`. -/
def cleanText (s : Str) : Str :=
  joinWords (splitWords (s.map (fun c => if isWordChar c || isSpaceChar c then c else ' ')))

/-- `clean` applied to a lowercased string, the combination the script uses. -/
def cleanLower (s : Str) : Str := cleanText (lowerStr s)

/-- The featured-artist boundary words of
`re.split(r'\b(ft|feat|featuring|with|and)\b', track_clean)` (line 77).
On a `clean`ed string (word characters and single spaces only) the
`\b`-delimited alternation matches exactly the standalone tokens. -/
def isFeatWord (w : Str) : Bool :=
  w = str "ft" || w = str "feat" || w = str "featuring" || w = str "with" || w = str "and"

/-- Tokens before the first featured-artist boundary word: the `[0]` element
of the `re.split` above, after `.strip()`. -/
def takeUntilFeat : List Str → List Str
  | [] => []
  | w :: ws => if isFeatWord w then [] else w :: takeUntilFeat ws

/-- Decidable list-prefix test (for the substring model of Python `in`). -/
def prefixOf : Str → Str → Bool
  | [], _ => true
  | _ :: _, [] => false
  | a :: as, b :: bs => a = b && prefixOf as bs

/-- Python `needle in hay` on strings: contiguous substring containment. -/
def substrOf (needle : Str) : Str → Bool
  | [] => prefixOf needle []
  | c :: rest => prefixOf needle (c :: rest) || substrOf needle rest

/-- `track_clean_no_feat` (fetch_youtube_links.py line 77). -/
def track_clean_no_feat_of (track : Str) : Str :=
  joinWords (takeUntilFeat (splitWords (cleanLower track)))

/-- `artist_words` (line 79): cleaned artist tokens of length > 1. -/
def artist_words_of (artist : Str) : List Str :=
  (splitWords (cleanLower artist)).filter (fun w => decide (1 < w.length))

/-- `track_words` (line 80): feature-stripped track tokens of length > 1. -/
def track_words_of (track : Str) : List Str :=
  (splitWords (track_clean_no_feat_of track)).filter (fun w => decide (1 < w.length))

/-- `artist_matches` (line 82): artist tokens occurring (as substrings) in the
cleaned video title or the lowercased channel name. -/
def artist_matches_of (artist title channel : Str) : Nat :=
  ((artist_words_of artist).filter
    (fun w => substrOf w (cleanLower title) || substrOf w (lowerStr channel))).length

/-- `track_matches` (line 83): track tokens occurring in the cleaned title. -/
def track_matches_of (track title : Str) : Nat :=
  ((track_words_of track).filter (fun w => substrOf w (cleanLower title))).length

/-- `validate_match` (fetch_youtube_links.py lines 58-96).  The acceptance
cascade, translated branch for branch; there is no disallowed-marker
(karaoke/cover/remix) filter anywhere in the source. -/
def validate_match (artist track title channel : Str) : Bool :=
  if 1 ≤ artist_matches_of artist title channel ∧ 1 ≤ track_matches_of track title then true
  else if 1 ≤ track_matches_of track title then true
  else if lowerStr channel ≠ [] ∧
      (artist_words_of artist).any (fun w => substrOf w (lowerStr channel)) then true
  else if 3 < (track_clean_no_feat_of track).length ∧
      substrOf (track_clean_no_feat_of track) (cleanLower title) then true
  else if max 1 ((artist_words_of artist).length / 2) ≤ artist_matches_of artist title channel
    then true
  else false

/-! ## Fetcher: `search_youtube` (fetch_youtube_links.py lines 100-159) -/

/-- Configuration constants of fetch_youtube_links.py (lines 27-37). -/
def BATCH_SIZE : Nat := 1000

def MAX_TRACKS_PER_RUN : Nat := 10000

def SEARCH_MAX_ATTEMPTS : Nat := 2

def RETRY_BACKOFF_BASE : Nat := 7

def MAX_NULL_RETRIES_PER_RUN : Nat := 2000

def NULL_RETRY_RESULTS : Nat := 10

/-- One flat search entry as consumed by `search_youtube`: `id` may be
missing, `title`/`uploader`-or-`channel` default to the empty string. -/
structure Video where
  id : Option Str
  title : Str
  channel : Str
deriving DecidableEq

/-- What one `_yt_search` attempt produced, as observed by the `try` body:
a (possibly falsy-element) entry list, an empty/absent entry list, a
`yt_dlp.utils.DownloadError` with its message, or any other exception. -/
inductive SearchOutcome where
  | entries (es : List (Option Video))
  | noEntries
  | downloadError (msg : Str)
  | otherError (msg : Str)
deriving DecidableEq

/-- The inner scan of `result['entries']` (lines 130-137): first non-falsy
video with a non-empty id accepted by `validate_match` wins. -/
def scanEntries (artist track : Str) : List (Option Video) → Option Str
  | [] => none
  | none :: rest => scanEntries artist track rest
  | some v :: rest =>
      match v.id with
      | none => scanEntries artist track rest
      | some vid =>
          if vid ≠ [] ∧ validate_match artist track v.title v.channel then some vid
          else scanEntries artist track rest

/-- Transient-error classification (line 142):
`('403' in msg) or ('429' in msg) or ('timed out' in msg.lower())`. -/
def isTransientMsg (msg : Str) : Bool :=
  substrOf (str "403") msg || substrOf (str "429") msg ||
    substrOf (str "timed out") (lowerStr msg)

/-- `backoff = RETRY_BACKOFF_BASE * (attempt + 1)` (line 144), where
`attempt` is the 0-based index of the attempt that just failed. -/
def backoff (attempt : Nat) : Nat := RETRY_BACKOFF_BASE * (attempt + 1)

/-- `results_count` per attempt (line 126): 5, widened to
`NULL_RETRY_RESULTS` on non-first attempts when `widen_on_retry`. -/
def resultsCount (attempt : Nat) (widen : Bool) : Nat :=
  if attempt = 0 ∨ widen = false then 5 else NULL_RETRY_RESULTS

/-- Result of the whole `search_youtube` call, together with the attempts
consumed and the backoff sleeps performed (in seconds, jitter included). -/
structure SearchResult where
  result : Option Str
  attemptsUsed : Nat
  sleeps : List ℚ
deriving DecidableEq

/-- The `for attempt in range(attempts)` loop of `search_youtube`
(lines 125-159).  `f a n` is the outcome of the network attempt with 0-based
index `a` requesting `n` results; `jit a` is the sampled
`random.uniform(0.5, 2.0)` jitter after attempt `a`.  `r` is the number of
loop iterations still available, `a` the current attempt index. -/
def searchLoop (f : Nat → Nat → SearchOutcome) (jit : Nat → ℚ) (artist track : Str)
    (widen : Bool) : Nat → Nat → List ℚ → SearchResult
  | 0, a, sleeps => ⟨none, a, sleeps⟩
  | r + 1, a, sleeps =>
      match f a (resultsCount a widen) with
      | .entries es =>
          match scanEntries artist track es with
          | some vid => ⟨some vid, a + 1, sleeps⟩
          | none => ⟨none, a + 1, sleeps⟩
      | .noEntries => searchLoop f jit artist track widen r (a + 1) sleeps
      | .downloadError msg =>
          if isTransientMsg msg ∧ 0 < r then
            searchLoop f jit artist track widen r (a + 1)
              (sleeps ++ [(backoff a : ℚ) + jit a])
          else ⟨none, a + 1, sleeps⟩
      | .otherError _ =>
          if 0 < r then
            searchLoop f jit artist track widen r (a + 1)
              (sleeps ++ [(backoff a : ℚ) + jit a])
          else ⟨none, a + 1, sleeps⟩

/-- `search_youtube(artist, track_name, attempts, widen_on_retry)`
(lines 118-159) over the attempt oracle `f` and jitter stream `jit`. -/
def search_youtube (f : Nat → Nat → SearchOutcome) (jit : Nat → ℚ)
    (artist track : Str) (attempts : Nat) (widen : Bool) : SearchResult :=
  searchLoop f jit artist track widen attempts 0 []

/-! ## Fetcher: `fetch_collection` (scrape_24six_metadata.py lines 187-229) -/

/-- What one `session.get` attempt produced, as observed by the `try` body
of `fetch_collection`: an HTTP status, a timeout, an `aiohttp.ClientError`,
or another exception. -/
inductive HttpAttempt where
  | status (code : Nat)
  | timeoutExc
  | clientExc (msg : Str)
  | otherExc (msg : Str)
deriving DecidableEq

/-- The `last_error` tag (source formats it into strings such as
`error_http_500` / `error_timeout` / `error_client_...`). -/
inductive LastErr where
  | httpCode (code : Nat)
  | timeout
  | client (msg : Str)
  | other (msg : Str)
deriving DecidableEq

/-- Terminal status of `fetch_collection`: `success` (HTML extraction is an
out-of-scope collaborator; the `retries` field records `attempt` when
positive), `404`, a 4xx client error returned immediately, or
`{last_error}_after_{max_retries}_retries` after exhaustion. -/
inductive FetchStatus where
  | success (retries : Nat)
  | notFound
  | httpError (code : Nat)
  | exhausted (e : LastErr)
deriving DecidableEq

/-- `wait_time = (2 ** attempt) * 0.5` (line 225): exponential backoff,
no jitter. -/
def scrapeWait (attempt : Nat) : ℚ := (2 ^ attempt : ℚ) * (1 / 2)

/-- Result of `fetch_collection` plus attempts consumed and waits slept. -/
structure FetchResult where
  status : FetchStatus
  attemptsUsed : Nat
  waits : List ℚ
deriving DecidableEq

/-- The `for attempt in range(max_retries)` loop of `fetch_collection`
(lines 195-229): 200 → success; 404 → never retried; other 4xx → returned
immediately; 5xx / timeout / client error / other error → recorded as
`last_error` and retried after exponential backoff while attempts remain. -/
def fetchLoop (f : Nat → HttpAttempt) : Nat → Nat → Option LastErr → List ℚ → FetchResult
  | 0, a, last, ws => ⟨.exhausted (last.getD (.other (str "None"))), a, ws⟩
  | r + 1, a, _, ws =>
      match f a with
      | .status c =>
          if c = 200 then ⟨.success a, a + 1, ws⟩
          else if c = 404 then ⟨.notFound, a + 1, ws⟩
          else if 400 ≤ c ∧ c < 500 then ⟨.httpError c, a + 1, ws⟩
          else if 0 < r then fetchLoop f r (a + 1) (some (.httpCode c)) (ws ++ [scrapeWait a])
          else ⟨.exhausted (.httpCode c), a + 1, ws⟩
      | .timeoutExc =>
          if 0 < r then fetchLoop f r (a + 1) (some .timeout) (ws ++ [scrapeWait a])
          else ⟨.exhausted .timeout, a + 1, ws⟩
      | .clientExc m =>
          if 0 < r then fetchLoop f r (a + 1) (some (.client m)) (ws ++ [scrapeWait a])
          else ⟨.exhausted (.client m), a + 1, ws⟩
      | .otherExc m =>
          if 0 < r then fetchLoop f r (a + 1) (some (.other m)) (ws ++ [scrapeWait a])
          else ⟨.exhausted (.other m), a + 1, ws⟩

/-- `fetch_collection(collection_id, ..., max_retries, timeout)` over the
attempt oracle `f`. -/
def fetch_collection (f : Nat → HttpAttempt) (max_retries : Nat) : FetchResult :=
  fetchLoop f max_retries 0 none []

/-! ## Persistence traces: `save_and_commit` vs `save_results`

`save_and_commit` (fetch_youtube_links.py lines 165-169) opens the target
file itself with `open(path, 'w')` and `json.dump`s into it.
`save_results` (scrape_24six_metadata.py lines 373-399) writes the payload
to `json_file + '.tmp'` and then `os.replace`s it over the target.
We model the file-system effect of a save as a trace of operations, where
an in-place whole-file write is an atomic truncating `wopen` followed by a
`wchunk` whose data may land partially if the process is interrupted, and
`rename` is atomic. -/

/-- A file-system snapshot: path → contents. -/
abbrev Disk := List (Str × Str)

def getFile (d : Disk) (p : Str) : Option Str :=
  (d.find? (fun e => decide (e.1 = p))).map (fun e => e.2)

def setFile : Disk → Str → Str → Disk
  | [], p, c => [(p, c)]
  | e :: d, p, c => if e.1 = p then (p, c) :: d else e :: setFile d p c

def delFile (d : Disk) (p : Str) : Disk := d.filter (fun e => decide (e.1 ≠ p))

/-- File-system operations a save performs. -/
inductive FsOp where
  | wopen (path : Str)
  | wchunk (path : Str) (data : Str)
  | rename (src dst : Str)
deriving DecidableEq

def applyOp (d : Disk) : FsOp → Disk
  | .wopen p => setFile d p []
  | .wchunk p s => setFile d p (((getFile d p).getD []) ++ s)
  | .rename src dst =>
      match getFile d src with
      | some c => delFile (setFile d dst c) src
      | none => d

/-- Interrupted `wchunk`: any prefix of the data may have reached the disk. -/
def chunkPartials (d : Disk) (p : Str) (s : Str) : List Disk :=
  s.inits.map (fun t => setFile d p (((getFile d p).getD []) ++ t))

/-- Every disk state observable if the process is interrupted at any point
while the trace runs (between operations, or mid-`wchunk`). -/
def crashStates (d : Disk) : List FsOp → List Disk
  | [] => [d]
  | op :: rest =>
      d :: (match op with
            | .wchunk p s => chunkPartials d p s
            | _ => []) ++ crashStates (applyOp d op) rest

/-- The store file of fetch_youtube_links.py. -/
def ytLinksPath : Str := str "youtube-links.json"

/-- The trace of `save_and_commit` (lines 168-169): a direct, in-place
truncating write of the serialized store into `youtube-links.json`;
no temporary file, no rename. -/
def save_and_commit_ops (content : Str) : List FsOp :=
  [.wopen ytLinksPath, .wchunk ytLinksPath content]

/-- The trace of the JSON half of `save_results` (lines 381-387): write the
payload to the sibling `json_file + '.tmp'`, then atomically rename it over
`json_file`. -/
def save_results_ops (jsonFile content : Str) : List FsOp :=
  [.wopen (jsonFile ++ str ".tmp"),
   .wchunk (jsonFile ++ str ".tmp") content,
   .rename (jsonFile ++ str ".tmp") jsonFile]

/-! ## Checkpoint store and the two-pass `main` of fetch_youtube_links.py -/

/-- A resolved entry of youtube-links.json (lines 271-277). -/
structure Record where
  artist : Str
  track : Str
  album : Str
  video_id : Str
  url : Str
deriving DecidableEq

/-- The keyed store `youtube_links`: an insertion-ordered dict
`key → record-or-null` (Python 3 dicts preserve insertion order). -/
abbrev Store := List (Str × Option Record)

/-- `key in youtube_links`. -/
def hasKey (s : Store) (k : Str) : Bool := s.any (fun p => decide (p.1 = k))

/-- `youtube_links.get(key)` distinguishing absence from a stored null. -/
def dictGet : Store → Str → Option (Option Record)
  | [], _ => none
  | p :: rest, k => if p.1 = k then some p.2 else dictGet rest k

/-- `youtube_links[key] = v`: replace in place if present, else append. -/
def dictSet : Store → Str → Option Record → Store
  | [], k, v => [(k, v)]
  | p :: rest, k, v => if p.1 = k then (k, v) :: rest else p :: dictSet rest k v

/-- Number of null-valued entries (`cleanup_nulls`' removal count,
lines 190-195). -/
def countNulls (s : Store) : Nat := (s.filter (fun p => p.2.isNone)).length

/-- `cleanup_nulls`: delete every entry whose value is `None`
(lines 190-195); insertion order of the survivors is preserved. -/
def cleanup_nulls (s : Store) : Store := s.filter (fun p => !p.2.isNone)

/-- `null_keys = [k for k, v in youtube_links.items() if v is None]`
(line 302). -/
def nullKeysOf (s : Store) : List Str := (s.filter (fun p => p.2.isNone)).map (fun p => p.1)

/-- One (artist, album-title, track-name) unit of pass-1 work. -/
structure Item where
  artist : Str
  albumTitle : Str
  name : Str
deriving DecidableEq

/-- `key = f"{artist}|{track_name}"` (line 252). -/
def keyOf (it : Item) : Str := it.artist ++ '|' :: it.name

/-- A metadata album: `artist`, `title`, `tracks` (each a name). -/
structure Album where
  artist : Str
  title : Str
  tracks : List Str
deriving DecidableEq

abbrev Metadata := List Album

/-- `total_tracks = sum(len(album.get('tracks', [])) for album in metadata)`
(line 223) — counts every track, valid or not. -/
def totalTracks (md : Metadata) : Nat := (md.map (fun a => a.tracks.length)).sum

/-- The pass-1 work units of one album: skipped entirely when the artist is
empty (line 244); tracks with empty names are skipped (line 249). -/
def albumItems (a : Album) : List Item :=
  if a.artist = [] then []
  else a.tracks.filterMap (fun n => if n = [] then none else some ⟨a.artist, a.title, n⟩)

/-- The pass-1 enumeration order over the whole metadata document
(lines 239-250). -/
def validTracks : Metadata → List Item
  | [] => []
  | a :: rest => albumItems a ++ validTracks rest

/-- `get_album_title(metadata, artist, track_name)` (lines 43-52): title of
the first album with this artist containing this track name. -/
def get_album_title : Metadata → Str → Str → Str
  | [], _, _ => []
  | a :: rest, artist, name =>
      if a.artist = artist ∧ a.tracks.any (fun n => decide (n = name)) then a.title
      else get_album_title rest artist name

/-- `key.split('|', 1)` (line 314). -/
def splitBar (k : Str) : Str × Str :=
  (k.takeWhile (fun c => c ≠ '|'), (k.dropWhile (fun c => c ≠ '|')).drop 1)

/-- The stored record built on a successful search (lines 271-277). -/
def mkRecord (artist name albumTitle vid : Str) : Record :=
  ⟨artist, name, albumTitle, vid, str "https://www.youtube.com/watch?v=" ++ vid⟩

/-- Operational constants of the run (module-level constants in the source;
defaults are fetch_youtube_links.py's values). -/
structure Config where
  batchSize : Nat := BATCH_SIZE
  cap : Nat := MAX_TRACKS_PER_RUN
  maxNullRetries : Nat := MAX_NULL_RETRIES_PER_RUN
deriving DecidableEq

/-- The network oracle standing for `search_youtube`: arguments are the
0-based index of this call within the run (successive calls may answer
differently), artist, track name, and `widen_on_retry`. -/
abbrev SearchFn := Nat → Str → Str → Bool → Option Str

/-- Mutable state of the pass-1 loop: the store, the `processed`,
`new_links` counters, the number of search calls made, the sequence of
store snapshots handed to `save_and_commit`, and whether the per-run cap
exit was taken. -/
structure RunState where
  store : Store
  processed : Nat
  newLinks : Nat
  calls : Nat
  saves : List Store
  capped : Bool
deriving DecidableEq

/-- The cap path (lines 258-266): save the store as-is, delete nulls, and
save again if any were removed; the run returns. -/
def capExit (st : RunState) : RunState :=
  ⟨cleanup_nulls st.store, st.processed, st.newLinks, st.calls,
   st.saves ++ [st.store] ++
     (if 0 < countNulls st.store then [cleanup_nulls st.store] else []),
   true⟩

/-- One pass-1 search of a new key (lines 268-293): store the record or a
null, bump the counters, and batch-save every `batchSize` operations. -/
def searchStep (cfg : Config) (f : SearchFn) (it : Item) (st : RunState) : RunState :=
  let res := f st.calls it.artist it.name false
  let store' := dictSet st.store (keyOf it) (res.map (mkRecord it.artist it.name it.albumTitle))
  ⟨store', st.processed + 1,
   st.newLinks + (if res.isSome then 1 else 0),
   st.calls + 1,
   if (st.processed + 1) % cfg.batchSize = 0 then st.saves ++ [store'] else st.saves,
   false⟩

/-- Pass 1 (lines 239-293): enumerate the valid tracks in order, skip keys
already present, take the cap exit when `processed` has reached the cap,
otherwise search and record. -/
def pass1 (cfg : Config) (f : SearchFn) : List Item → RunState → RunState
  | [], st => st
  | it :: rest, st =>
      if st.capped then st
      else if hasKey st.store (keyOf it) then pass1 cfg f rest st
      else if cfg.cap ≤ st.processed then capExit st
      else pass1 cfg f rest (searchStep cfg f it st)

/-- Mutable state of the pass-2 null-retry loop. -/
structure RetrySt where
  store : Store
  processed : Nat
  calls : Nat
  saves : List Store
  retried : Nat
  fixed : Nat
deriving DecidableEq

/-- The pass-2 loop body over the selected null keys (lines 313-338):
re-search with a widened window, overwrite the entry, and batch-save every
`batchSize` retries. -/
def retryLoop (cfg : Config) (f : SearchFn) (md : Metadata) : List Str → RetrySt → RetrySt
  | [], st => st
  | key :: rest, st =>
      let artist := (splitBar key).1
      let name := (splitBar key).2
      let albumTitle := get_album_title md artist name
      let res := f st.calls artist name true
      let store' := dictSet st.store key (res.map (mkRecord artist name albumTitle))
      retryLoop cfg f md rest
        ⟨store', st.processed + 1, st.calls + 1,
         if (st.retried + 1) % cfg.batchSize = 0 then st.saves ++ [store'] else st.saves,
         st.retried + 1,
         st.fixed + (if res.isSome then 1 else 0)⟩

/-- The save issued after pass 1 when anything was processed (lines 296-297). -/
def afterPass1Saves (st : RunState) : List Store :=
  if 0 < st.processed then st.saves ++ [st.store] else st.saves

/-- Pass 2 (lines 300-345): only when null keys exist and
`len(youtube_links) >= total_tracks`; retries the first
`min(len(null_keys), max(0, cap - processed), maxNullRetries)` null keys,
then saves (line 340). -/
def pass2Run (cfg : Config) (f : SearchFn) (md : Metadata) (total : Nat)
    (st1 : RunState) : RetrySt :=
  let base : RetrySt := ⟨st1.store, st1.processed, st1.calls, afterPass1Saves st1, 0, 0⟩
  let nullKeys := nullKeysOf st1.store
  let toRetry := min (min nullKeys.length (cfg.cap - st1.processed)) cfg.maxNullRetries
  if nullKeys = [] ∨ st1.store.length < total ∨ toRetry = 0 then base
  else
    let r := retryLoop cfg f md (nullKeys.take toRetry) base
    { r with saves := r.saves ++ [r.store] }

/-- Observable outcome of one `main()` run. -/
structure RunResult where
  store : Store
  saves : List Store
  storeAfterPass1 : Store
  processed1 : Nat
  searchCalls : Nat
  retried : Nat
  capped : Bool
deriving DecidableEq

/-- The final cleanup and conditional save (lines 350-352), packaged with
the run's observables. -/
def finalizeRun (st1 : RunState) (st2 : RetrySt) : RunResult :=
  ⟨cleanup_nulls st2.store,
   if 0 < countNulls st2.store then st2.saves ++ [cleanup_nulls st2.store] else st2.saves,
   st1.store, st1.processed, st2.calls, st2.retried, false⟩

/-- The observables of a run that took the cap exit inside pass 1
(lines 258-266: the function returns right there). -/
def cappedResult (st1 : RunState) : RunResult :=
  ⟨st1.store, st1.saves, st1.store, st1.processed, st1.calls, 0, true⟩

/-- `main()` of fetch_youtube_links.py (lines 201-358), from the point at
which `metadata` and the existing `youtube_links` store have been loaded:
pass 1 over the valid tracks, the post-pass-1 save, the gated null-retry
pass, and the final null cleanup with its conditional save.  On the cap
path the run returns directly after `capExit`'s saves. -/
def mainRun (cfg : Config) (f : SearchFn) (md : Metadata) (store0 : Store) : RunResult :=
  let st1 := pass1 cfg f (validTracks md) ⟨store0, 0, 0, 0, [], false⟩
  if st1.capped then cappedResult st1
  else finalizeRun st1 (pass2Run cfg f md (totalTracks md) st1)

/-- The store contents on disk once the run has finished: the last snapshot
handed to `save_and_commit`, or the untouched initial file when the run
never saved. -/
def finalDisk (r : RunResult) (store0 : Store) : Store :=
  (r.saves.getLast?).getD store0

/-! ## Confidence scoring (fetch_artist_ids_verified.py)

`calculate_similarity` wraps difflib's `SequenceMatcher(...).ratio()` over
normalized text — a Python standard-library collaborator, modelled as an
oracle `sim : Str → Str → ℚ` (a ratio `2*M/T` always lies in `[0, 1]`). -/

/-- Python `round(x, 1)` over the exact rationals of this model:
nearest multiple of 1/10 (Python rounds float ties to even; no theorem
below depends on tie behaviour). -/
def pyRound1 (x : ℚ) : ℚ := ((⌊x * 10 + 1 / 2⌋ : ℤ) : ℚ) / 10

/-- `matched_albums` (lines 173-178): known albums with some upload at
similarity ≥ 0.75 (first match breaks the inner loop, i.e. `any`). -/
def matched_albums_of (sim : Str → Str → ℚ) (channel_uploads known_albums : List Str) : ℕ :=
  (known_albums.filter
    (fun ka => channel_uploads.any (fun u => decide ((3 : ℚ) / 4 ≤ sim ka u)))).length

/-- `matched_tracks` (lines 181-186): the first 20 known tracks with some
upload at similarity ≥ 0.80. -/
def matched_tracks_of (sim : Str → Str → ℚ) (channel_uploads known_tracks : List Str) : ℕ :=
  ((known_tracks.take 20).filter
    (fun kt => channel_uploads.any (fun u => decide ((4 : ℚ) / 5 ≤ sim kt u)))).length

/-- `total_known` (line 189): albums plus at most 10 tracks at weight 0.3. -/
def total_known_of (known_albums known_tracks : List Str) : ℚ :=
  (known_albums.length : ℚ) + (min known_tracks.length 10 : ℕ) * (3 / 10)

/-- `total_matched` (line 190). -/
def total_matched_of (sim : Str → Str → ℚ)
    (channel_uploads known_albums known_tracks : List Str) : ℚ :=
  (matched_albums_of sim channel_uploads known_albums : ℚ) +
    (matched_tracks_of sim channel_uploads known_tracks : ℚ) * (3 / 10)

/-- `validate_discography_match(channel_uploads, known_albums, known_tracks)`
(lines 164-197): the percentage is capped at 100; returns
`(match_percentage, num_matches)`. -/
def validate_discography_match (sim : Str → Str → ℚ)
    (channel_uploads known_albums known_tracks : List Str) : ℚ × ℕ :=
  if known_albums = [] ∧ known_tracks = [] then (0, 0)
  else if total_known_of known_albums known_tracks = 0 then (0, 0)
  else
    (min 100 (total_matched_of sim channel_uploads known_albums known_tracks /
        total_known_of known_albums known_tracks * 100),
     matched_albums_of sim channel_uploads known_albums +
       matched_tracks_of sim channel_uploads known_tracks)

/-- `name_score = name_sim * 60` (line 210). -/
def name_score (name_sim : ℚ) : ℚ := name_sim * 60

/-- `disco_score = (discography_score / 100) * 40` (line 213). -/
def disco_score (discography_score : ℚ) : ℚ := discography_score / 100 * 40

/-- The bonus branches of `calculate_confidence` (lines 218-221). -/
def bonus_total (name_sim total : ℚ) (num_matches : ℕ) : ℚ :=
  if 19 / 20 ≤ name_sim ∧ 2 ≤ num_matches then min 100 (total + 15)
  else if 9 / 10 ≤ name_sim ∧ 3 ≤ num_matches then min 100 (total + 10)
  else total

/-- The dict returned by `calculate_confidence` (lines 223-227). -/
structure Confidence where
  total : ℚ
  name_similarity : ℚ
  discography_match : ℚ
deriving DecidableEq

/-- `calculate_confidence(artist_name, candidate, discography_score,
num_matches)` (lines 199-227), with the candidate's `channelName` passed
explicitly and the similarity oracle `sim` standing for
`calculate_similarity`. -/
def calculate_confidence (sim : Str → Str → ℚ) (artist_name channel_name : Str)
    (discography_score : ℚ) (num_matches : ℕ) : Confidence :=
  ⟨pyRound1 (bonus_total (sim artist_name channel_name)
      (name_score (sim artist_name channel_name) + disco_score discography_score) num_matches),
   pyRound1 (sim artist_name channel_name * 100),
   pyRound1 discography_score⟩

/-- One search candidate (lines 109-113). -/
structure Candidate where
  channelId : Str
  channelName : Str
  strategy : Nat
deriving DecidableEq

/-- The `best_candidate` dict built in `process_artist` (lines 264-269). -/
structure Best where
  channelId : Str
  channelName : Str
  confidence : Confidence
  strategy : Nat
deriving DecidableEq

/-- The candidate scan of `process_artist` (lines 242-269): skip candidates
with no uploads, score the rest, keep the strictly best total. -/
def bestScan (sim : Str → Str → ℚ) (uploadsO : Str → List Str) (artist_name : Str)
    (albums tracks : List Str) : List Candidate → Option Best × ℚ → Option Best × ℚ
  | [], acc => acc
  | cand :: rest, acc =>
      let uploads := uploadsO cand.channelId
      if uploads = [] then bestScan sim uploadsO artist_name albums tracks rest acc
      else
        let dm := validate_discography_match sim uploads albums tracks
        let conf := calculate_confidence sim artist_name cand.channelName dm.1 dm.2
        if acc.2 < conf.total then
          bestScan sim uploadsO artist_name albums tracks rest
            (some ⟨cand.channelId, cand.channelName, conf, cand.strategy⟩, conf.total)
        else bestScan sim uploadsO artist_name albums tracks rest acc

/-- `process_artist(artist_name, discography)` (lines 229-271):
`searchO` stands for `search_artist_ytmusic` and `uploadsO` for
`fetch_channel_uploads` (both network collaborators). -/
def process_artist (sim : Str → Str → ℚ) (searchO : Str → List Candidate)
    (uploadsO : Str → List Str) (artist_name : Str) (albums tracks : List Str) :
    Option Best :=
  let candidates := searchO artist_name
  if candidates = [] then none
  else (bestScan sim uploadsO artist_name albums tracks candidates (none, 0)).1

/-- One artist of `artist_discography` (dict key plus albums/tracks lists). -/
structure ArtistEntry where
  name : Str
  albums : List Str
  tracks : List Str
deriving DecidableEq

/-- An element of `results_simple` / artists_verified.json (lines 305-308). -/
structure SimpleEntry where
  id : Str
  name : Str
deriving DecidableEq

/-- An element of `results_detailed` / artists_verified_detailed.json
(lines 311-317, confidence sub-dict elided to its total). -/
structure DetailedEntry where
  id : Str
  name : Str
  confidence : ℚ
  matchedChannelName : Str
deriving DecidableEq

/-- One iteration of the main loop (lines 292-323): append to both outputs
exactly when `result` is non-None with `confidence['total'] >= 70`. -/
def verifiedStep (sim : Str → Str → ℚ) (searchO : Str → List Candidate)
    (uploadsO : Str → List Str) (acc : List SimpleEntry × List DetailedEntry)
    (a : ArtistEntry) : List SimpleEntry × List DetailedEntry :=
  match process_artist sim searchO uploadsO a.name a.albums a.tracks with
  | none => acc
  | some r =>
      if (70 : ℚ) ≤ r.confidence.total then
        (acc.1 ++ [⟨r.channelId, a.name⟩],
         acc.2 ++ [⟨r.channelId, a.name, r.confidence.total, r.channelName⟩])
      else acc

/-- The accumulation of both output lists over the artist dict. -/
def verifiedGo (sim : Str → Str → ℚ) (searchO : Str → List Candidate)
    (uploadsO : Str → List Str) :
    List ArtistEntry → List SimpleEntry × List DetailedEntry →
      List SimpleEntry × List DetailedEntry
  | [], acc => acc
  | a :: rest, acc => verifiedGo sim searchO uploadsO rest (verifiedStep sim searchO uploadsO acc a)

/-- `main()` of fetch_artist_ids_verified.py (lines 273-341), from the
loaded discography to the two serialized output lists. -/
def verifiedMain (sim : Str → Str → ℚ) (searchO : Str → List Candidate)
    (uploadsO : Str → List Str) (disc : List ArtistEntry) :
    List SimpleEntry × List DetailedEntry :=
  verifiedGo sim searchO uploadsO disc ([], [])

/-! ## General lemmas -/

theorem getLast?_append_single {α : Type} (l : List α) (a : α) :
    (l ++ [a]).getLast? = some a := by
  induction l with
  | nil => rfl
  | cons b l ih =>
      cases l with
      | nil => rfl
      | cons c l => simpa using ih

/-! ## C3: the validator has no disallowed-marker filter -/

/-- C3 counterexample: the claim says `validate_match` with expected track
"Hello" rejects a candidate titled "Hello Karaoke Instrumental"; the code
accepts it (the track token "hello" occurs in the title, and no marker
filter exists). -/
theorem c3_counterexample :
    validate_match (str "Adele") (str "Hello") (str "Hello Karaoke Instrumental") (str "") =
      true := by decide

/-- C3 (amended): `validate_match` applies no disallowed-marker filter; any
candidate whose (cleaned) title contains one of the expected track's tokens
is accepted, whatever else — karaoke, cover, remix markers included — the
title contains. -/
theorem c3_track_token_accepts (artist track title channel : Str)
    (h : ∃ w ∈ track_words_of track, substrOf w (cleanLower title) = true) :
    validate_match artist track title channel = true := by
  rcases h with ⟨w, hw, hsub⟩
  have hm : 1 ≤ track_matches_of track title := by
    have hmem : w ∈ (track_words_of track).filter (fun w => substrOf w (cleanLower title)) :=
      List.mem_filter.mpr ⟨hw, hsub⟩
    have hpos := List.length_pos.mpr (List.ne_nil_of_mem hmem)
    simpa [track_matches_of] using hpos
  unfold validate_match
  by_cases h1 : 1 ≤ artist_matches_of artist title channel ∧ 1 ≤ track_matches_of track title
  · rw [if_pos h1]
  · rw [if_neg h1, if_pos hm]

/-- C3 amended-claim witness at the karaoke candidate. -/
theorem c3_witness :
    (∃ w ∈ track_words_of (str "Hello"),
        substrOf w (cleanLower (str "Hello Karaoke Instrumental")) = true) ∧
      validate_match (str "Adele") (str "Hello") (str "Hello Karaoke Instrumental")
        (str "Some Channel") = true :=
  ⟨by decide,
   c3_track_token_accepts (str "Adele") (str "Hello") (str "Hello Karaoke Instrumental")
     (str "Some Channel") (by decide)⟩

/-! ## C2: atomicity of the two save routines -/

theorem getFile_cons_eq (e : Str × Str) (d : Disk) (q : Str) (h : e.1 = q) :
    getFile (e :: d) q = some e.2 := by
  rw [getFile, List.find?_cons_of_pos _ (by simpa using h)]
  rfl

theorem getFile_cons_ne (e : Str × Str) (d : Disk) (q : Str) (h : ¬ e.1 = q) :
    getFile (e :: d) q = getFile d q := by
  rw [getFile, getFile, List.find?_cons_of_neg _ (by simpa using h)]

theorem getFile_setFile_same (d : Disk) (p c : Str) :
    getFile (setFile d p c) p = some c := by
  induction d with
  | nil => simp [getFile, setFile]
  | cons e d ih =>
      by_cases h : e.1 = p
      · rw [setFile, if_pos h, getFile_cons_eq _ _ _ rfl]
      · rw [setFile, if_neg h, getFile_cons_ne _ _ _ h]
        exact ih

theorem getFile_setFile_ne (d : Disk) (p c q : Str) (h : q ≠ p) :
    getFile (setFile d p c) q = getFile d q := by
  induction d with
  | nil =>
      rw [setFile, getFile_cons_ne _ _ _ (fun hh => h hh.symm)]
  | cons e d ih =>
      by_cases he : e.1 = p
      · rw [setFile, if_pos he, getFile_cons_ne _ _ _ (fun hh => h hh.symm),
          getFile_cons_ne _ _ _ (fun hh => h (he ▸ hh ▸ rfl))]
      · rw [setFile, if_neg he]
        by_cases hq : e.1 = q
        · rw [getFile_cons_eq _ _ _ hq, getFile_cons_eq _ _ _ hq]
        · rw [getFile_cons_ne _ _ _ hq, getFile_cons_ne _ _ _ hq]
          exact ih

theorem getFile_delFile_ne (d : Disk) (p q : Str) (h : q ≠ p) :
    getFile (delFile d p) q = getFile d q := by
  induction d with
  | nil => rfl
  | cons e d ih =>
      by_cases he : e.1 = p
      · have hq : ¬ e.1 = q := fun hh => h (he ▸ hh ▸ rfl)
        rw [delFile, List.filter_cons_of_neg (by simpa using he),
          getFile_cons_ne _ _ _ hq]
        exact ih
      · rw [delFile, List.filter_cons_of_pos (by simpa using he)]
        by_cases hq : e.1 = q
        · rw [getFile_cons_eq _ _ _ hq, getFile_cons_eq _ _ _ hq]
        · rw [getFile_cons_ne _ _ _ hq, getFile_cons_ne _ _ _ hq]
          exact ih

/-- C2 counterexample: `save_and_commit` writes the store file in place —
during the write the target holds a state that is neither the previous
complete contents nor the new complete contents (e.g. the truncated or
partially-written file). -/
theorem c2_counterexample :
    ((crashStates [(ytLinksPath, str "OLD")] (save_and_commit_ops (str "NEW"))).any
      (fun d => decide (getFile d ytLinksPath ≠ some (str "OLD") ∧
                        getFile d ytLinksPath ≠ some (str "NEW")))) = true := by decide

/-- C2 (amended): the scraper's `save_results` does write to the sibling
`.tmp` path and atomically rename; if the process is interrupted at any
point of that trace, the target file holds either its previous contents or
the complete new contents.  (`save_and_commit` of the youtube-links scripts
instead writes the target in place, as the counterexample shows.) -/
theorem c2_save_results_atomic (disk0 : Disk) (jsonFile content : Str) :
    ∀ d ∈ crashStates disk0 (save_results_ops jsonFile content),
      getFile d jsonFile = getFile disk0 jsonFile ∨ getFile d jsonFile = some content := by
  have htmp : jsonFile ≠ jsonFile ++ str ".tmp" := by
    intro h
    have hlen := congrArg List.length h
    simp [str] at hlen
  have h1 : getFile (setFile disk0 (jsonFile ++ str ".tmp") []) (jsonFile ++ str ".tmp") =
      some [] := getFile_setFile_same _ _ _
  have h2 : getFile (setFile (setFile disk0 (jsonFile ++ str ".tmp") [])
      (jsonFile ++ str ".tmp") content) (jsonFile ++ str ".tmp") = some content :=
    getFile_setFile_same _ _ _
  intro d hd
  simp only [save_results_ops, crashStates, applyOp, List.mem_cons, List.nil_append,
    List.mem_append, List.mem_singleton, List.not_mem_nil, or_false, h1, h2,
    Option.getD_some, List.nil_append] at hd
  rcases hd with rfl | (rfl | hmem) | rfl | rfl
  · exact Or.inl rfl
  · exact Or.inl (getFile_setFile_ne _ _ _ _ htmp)
  · obtain ⟨t, _, rfl⟩ := by simpa [chunkPartials] using hmem
    exact Or.inl (by rw [getFile_setFile_ne _ _ _ _ htmp, getFile_setFile_ne _ _ _ _ htmp])
  · exact Or.inl (by rw [getFile_setFile_ne _ _ _ _ htmp, getFile_setFile_ne _ _ _ _ htmp])
  · exact Or.inr (by rw [getFile_delFile_ne _ _ _ htmp, getFile_setFile_same])

/-- C2 amended-claim witness: the fully-renamed final crash state of a
concrete `save_results` trace holds the new contents. -/
theorem c2_witness :
    getFile [(str "metadata.json", str "NEW")] (str "metadata.json") =
        getFile [(str "metadata.json", str "OLD")] (str "metadata.json") ∨
      getFile [(str "metadata.json", str "NEW")] (str "metadata.json") =
        some (str "NEW") :=
  c2_save_results_atomic [(str "metadata.json", str "OLD")] (str "metadata.json")
    (str "NEW") [(str "metadata.json", str "NEW")] (by decide)

/-! ## C5: retry classification of rate-limit signals -/

theorem searchLoop_attempts_ge (f : Nat → Nat → SearchOutcome) (jit : Nat → ℚ)
    (artist track : Str) (w : Bool) :
    ∀ r a sleeps, a + min r 1 ≤ (searchLoop f jit artist track w r a sleeps).attemptsUsed := by
  intro r
  induction r with
  | zero => intro a sleeps; simp [searchLoop]
  | succ r ih =>
      intro a sleeps
      cases hf : f a (resultsCount a w) with
      | entries es =>
          simp only [searchLoop, hf]
          cases hs : scanEntries artist track es <;> simp
      | noEntries =>
          simp only [searchLoop, hf]
          have := ih (a + 1) sleeps
          omega
      | downloadError msg =>
          simp only [searchLoop, hf]
          split
          · have := ih (a + 1) (sleeps ++ [(backoff a : ℚ) + jit a])
            omega
          · simp
      | otherError msg =>
          simp only [searchLoop, hf]
          split
          · have := ih (a + 1) (sleeps ++ [(backoff a : ℚ) + jit a])
            omega
          · simp

theorem fetchLoop_attempts_ge (f : Nat → HttpAttempt) :
    ∀ r a last ws, a + min r 1 ≤ (fetchLoop f r a last ws).attemptsUsed := by
  intro r
  induction r with
  | zero => intro a last ws; simp [fetchLoop]
  | succ r ih =>
      intro a last ws
      cases hf : f a with
      | status c =>
          simp only [fetchLoop, hf]
          split
          · simp
          · split
            · simp
            · split
              · simp
              · split
                · have := ih (a + 1) (some (.httpCode c)) (ws ++ [scrapeWait a])
                  omega
                · simp
      | timeoutExc =>
          simp only [fetchLoop, hf]
          split
          · have := ih (a + 1) (some .timeout) (ws ++ [scrapeWait a])
            omega
          · simp
      | clientExc m =>
          simp only [fetchLoop, hf]
          split
          · have := ih (a + 1) (some (.client m)) (ws ++ [scrapeWait a])
            omega
          · simp
      | otherExc m =>
          simp only [fetchLoop, hf]
          split
          · have := ih (a + 1) (some (.other m)) (ws ++ [scrapeWait a])
            omega
          · simp

theorem searchLoop_succ_transient (f : Nat → Nat → SearchOutcome) (jit : Nat → ℚ)
    (artist track : Str) (w : Bool) (r a : Nat) (sleeps : List ℚ) (msg : Str)
    (hf : f a (resultsCount a w) = .downloadError msg) (htr : isTransientMsg msg = true)
    (hr : 0 < r) :
    searchLoop f jit artist track w (r + 1) a sleeps =
      searchLoop f jit artist track w r (a + 1) (sleeps ++ [(backoff a : ℚ) + jit a]) := by
  conv_lhs => rw [searchLoop]
  simp only [hf]
  rw [if_pos ⟨htr, hr⟩]

theorem fetchLoop_succ_5xx (f : Nat → HttpAttempt) (r a c : Nat) (last : Option LastErr)
    (ws : List ℚ) (hf : f a = .status c) (h5 : 500 ≤ c) (hr : 0 < r) :
    fetchLoop f (r + 1) a last ws =
      fetchLoop f r (a + 1) (some (.httpCode c)) (ws ++ [scrapeWait a]) := by
  conv_lhs => rw [fetchLoop]
  simp only [hf]
  rw [if_neg (by omega), if_neg (by omega), if_neg (by omega), if_pos hr]

theorem fetchLoop_succ_timeout (f : Nat → HttpAttempt) (r a : Nat) (last : Option LastErr)
    (ws : List ℚ) (hf : f a = .timeoutExc) (hr : 0 < r) :
    fetchLoop f (r + 1) a last ws =
      fetchLoop f r (a + 1) (some .timeout) (ws ++ [scrapeWait a]) := by
  conv_lhs => rw [fetchLoop]
  simp only [hf]
  rw [if_pos hr]

theorem fetchLoop_succ_4xx (f : Nat → HttpAttempt) (r a c : Nat) (last : Option LastErr)
    (ws : List ℚ) (hf : f a = .status c) (h4 : 400 ≤ c) (h5 : c < 500) (h404 : c ≠ 404) :
    fetchLoop f (r + 1) a last ws = ⟨.httpError c, a + 1, ws⟩ := by
  conv_lhs => rw [fetchLoop]
  simp only [hf]
  rw [if_neg (by omega), if_neg h404, if_pos ⟨h4, h5⟩]

/-- C5 counterexample: in `fetch_collection` an HTTP 403 (a rate-limit
signal by the claim) falls into the generic 4xx branch and is returned
immediately as terminal after a single attempt, although two more attempts
remain in the budget — it is not classified retryable and not retried. -/
theorem c5_counterexample :
    fetch_collection (fun _ => .status 403) 3 = ⟨.httpError 403, 1, []⟩ := by decide

/-- C5 (amended): `search_youtube` does classify DownloadError messages
containing `403`/`429`/`timed out` as transient and consumes a further
attempt; `fetch_collection` retries server errors (5xx) and timeouts while
attempts remain, but returns any non-404 4xx — HTTP 403 and 429 included —
immediately as a terminal outcome after one attempt. -/
theorem c5_retry_classification :
    (∀ (f : Nat → Nat → SearchOutcome) (jit : Nat → ℚ) (artist track : Str) (w : Bool)
        (msg : Str) (n : Nat), f 0 (resultsCount 0 w) = .downloadError msg →
        isTransientMsg msg = true → 2 ≤ n →
        2 ≤ (search_youtube f jit artist track n w).attemptsUsed) ∧
    (∀ (f : Nat → HttpAttempt) (n c : Nat), 2 ≤ n → f 0 = .status c → 500 ≤ c →
        2 ≤ (fetch_collection f n).attemptsUsed) ∧
    (∀ (f : Nat → HttpAttempt) (n : Nat), 2 ≤ n → f 0 = .timeoutExc →
        2 ≤ (fetch_collection f n).attemptsUsed) ∧
    (∀ (f : Nat → HttpAttempt) (n c : Nat), 1 ≤ n → f 0 = .status c → 400 ≤ c → c < 500 →
        c ≠ 404 → fetch_collection f n = ⟨.httpError c, 1, []⟩) := by
  refine ⟨?_, ?_, ?_, ?_⟩
  · intro f jit artist track w msg n hf htr hn
    obtain ⟨m, rfl⟩ : ∃ m, n = m + 2 := ⟨n - 2, by omega⟩
    rw [search_youtube,
      searchLoop_succ_transient f jit artist track w (m + 1) 0 [] msg hf htr (by omega)]
    have := searchLoop_attempts_ge f jit artist track w (m + 1) (0 + 1)
      ([] ++ [(backoff 0 : ℚ) + jit 0])
    omega
  · intro f n c hn hf hc
    obtain ⟨m, rfl⟩ : ∃ m, n = m + 2 := ⟨n - 2, by omega⟩
    rw [fetch_collection,
      fetchLoop_succ_5xx f (m + 1) 0 c none [] hf hc (by omega)]
    have := fetchLoop_attempts_ge f (m + 1) (0 + 1) (some (.httpCode c)) ([] ++ [scrapeWait 0])
    omega
  · intro f n hn hf
    obtain ⟨m, rfl⟩ : ∃ m, n = m + 2 := ⟨n - 2, by omega⟩
    rw [fetch_collection,
      fetchLoop_succ_timeout f (m + 1) 0 none [] hf (by omega)]
    have := fetchLoop_attempts_ge f (m + 1) (0 + 1) (some .timeout) ([] ++ [scrapeWait 0])
    omega
  · intro f n c hn hf h4 h5 h404
    obtain ⟨m, rfl⟩ : ∃ m, n = m + 1 := ⟨n - 1, by omega⟩
    rw [fetch_collection, fetchLoop_succ_4xx f m 0 c none [] hf h4 h5 h404]

/-- C5 amended-claim witness: a transient 429 message is retried by
`search_youtube`; a 503 is retried by `fetch_collection`; a 429 response is
returned by `fetch_collection` without retry. -/
theorem c5_witness :
    2 ≤ (search_youtube (fun _ _ => .downloadError (str "HTTP Error 429"))
        (fun _ => 1) (str "a") (str "b") 2 true).attemptsUsed ∧
    2 ≤ (fetch_collection (fun _ => .status 503) 3).attemptsUsed ∧
    fetch_collection (fun _ => .status 429) 2 = ⟨.httpError 429, 1, []⟩ :=
  ⟨c5_retry_classification.1 (fun _ _ => .downloadError (str "HTTP Error 429"))
      (fun _ => 1) (str "a") (str "b") true (str "HTTP Error 429") 2 rfl (by decide)
      (by norm_num),
   c5_retry_classification.2.1 (fun _ => .status 503) 3 503 (by norm_num) rfl (by norm_num),
   c5_retry_classification.2.2.2 (fun _ => .status 429) 2 429 (by norm_num) rfl
     (by norm_num) (by norm_num) (by norm_num)⟩

/-! ## C8: the backoff schedule of `search_youtube` -/

theorem searchLoop_transient_sleeps (msgF : Nat → Str) (jit : Nat → ℚ)
    (artist track : Str) (w : Bool) (htr : ∀ a, isTransientMsg (msgF a) = true) :
    ∀ r a sleeps,
      (searchLoop (fun a _ => .downloadError (msgF a)) jit artist track w r a sleeps).sleeps =
        sleeps ++ (List.range (r - 1)).map (fun i => ((backoff (a + i) : ℚ) + jit (a + i))) := by
  intro r
  induction r with
  | zero => intro a sleeps; simp [searchLoop]
  | succ r ih =>
      intro a sleeps
      simp only [searchLoop]
      by_cases hr : 0 < r
      · rw [if_pos ⟨htr a, hr⟩, ih]
        have hr2 : r = (r - 1) + 1 := by omega
        rw [Nat.add_sub_cancel]
        conv_rhs => rw [hr2, List.range_succ_eq_map]
        rw [List.map_cons, List.map_map, List.append_assoc, List.singleton_append]
        refine congrArg (fun l => sleeps ++ l) ?_
        rw [Nat.add_zero]
        refine congrArg (fun l => ((backoff a : ℚ) + jit a) :: l) ?_
        refine List.map_congr_left ?_
        intro i _
        have h2 : a + 1 + i = a + Nat.succ i := by omega
        simp only [Function.comp_apply]
        rw [h2]
      · have hr0 : r = 0 := by omega
        subst hr0
        rw [if_neg (by simp)]
        simp

/-- C8 counterexample: the sleep performed before attempt 2 (1-indexed) is
`7 + jitter` — with the sampled jitter 1 it equals 8 seconds — which is
strictly below `base * 2 + jitter` for every jitter allowed by
`random.uniform(0.5, 2.0)`; the claimed formula `base * k` is off by one. -/
theorem c8_counterexample :
    (search_youtube (fun _ _ => .downloadError (str "429")) (fun _ => (1 : ℚ)) (str "a")
        (str "b") 2 false).sleeps = [8] ∧
      (8 : ℚ) < ((RETRY_BACKOFF_BASE * 2 : ℕ) : ℚ) + 1 / 2 := by
  constructor
  · rw [search_youtube, searchLoop_transient_sleeps (fun _ => str "429") (fun _ => 1)
      (str "a") (str "b") false (fun _ => show isTransientMsg (str "429") = true by decide)
      2 0 []]
    norm_num [backoff, RETRY_BACKOFF_BASE, List.range_succ, List.range_zero]
  · norm_num [RETRY_BACKOFF_BASE]

/-- C8 (amended): for a run of consecutive transient failures the delay
slept before attempt k (1-indexed, k > 1) is
`RETRY_BACKOFF_BASE * (k - 1)` seconds plus the sampled jitter
(`random.uniform(0.5, 2.0)`) — linear in k, but with coefficient `k - 1`,
not `k`. -/
theorem c8_backoff_linear (msgF : Nat → Str) (jit : Nat → ℚ) (artist track : Str)
    (w : Bool) (n k : Nat) (htr : ∀ a, isTransientMsg (msgF a) = true)
    (hk2 : 2 ≤ k) (hkn : k ≤ n) :
    ((search_youtube (fun a _ => .downloadError (msgF a)) jit artist track n w).sleeps)[k - 2]?
        = some ((RETRY_BACKOFF_BASE * (k - 1) : ℕ) + jit (k - 2)) := by
  rw [search_youtube, searchLoop_transient_sleeps msgF jit artist track w htr n 0 []]
  simp only [List.nil_append]
  rw [List.getElem?_map, List.getElem?_range (by omega : k - 2 < n - 1)]
  have hb : k - 2 + 1 = k - 1 := by omega
  simp only [Option.map_some', Nat.zero_add, backoff]
  rw [hb]

/-- C8 amended-claim witness: three transient attempts; the sleep before
attempt 2 is `base * 1` plus the jitter. -/
theorem c8_witness :
    ((search_youtube (fun _ _ => .downloadError (str "timed out")) (fun _ => (1 : ℚ)) (str "x")
        (str "y") 3 false).sleeps)[0]? =
      some (((RETRY_BACKOFF_BASE * 1 : ℕ) : ℚ) + 1) :=
  c8_backoff_linear (fun _ => str "timed out") (fun _ => 1) (str "x") (str "y") false 3 2
    (fun _ => show isTransientMsg (str "timed out") = true by decide) (by norm_num)
    (by norm_num)

/-! ## Store and pipeline lemmas (C1, C4, C6, C7) -/

@[simp] theorem capExit_store (st : RunState) : (capExit st).store = cleanup_nulls st.store := rfl

@[simp] theorem capExit_processed (st : RunState) : (capExit st).processed = st.processed := rfl

@[simp] theorem capExit_calls (st : RunState) : (capExit st).calls = st.calls := rfl

@[simp] theorem capExit_capped (st : RunState) : (capExit st).capped = true := rfl

@[simp] theorem searchStep_processed (cfg : Config) (f : SearchFn) (it : Item) (st : RunState) :
    (searchStep cfg f it st).processed = st.processed + 1 := rfl

@[simp] theorem searchStep_calls (cfg : Config) (f : SearchFn) (it : Item) (st : RunState) :
    (searchStep cfg f it st).calls = st.calls + 1 := rfl

@[simp] theorem searchStep_capped (cfg : Config) (f : SearchFn) (it : Item) (st : RunState) :
    (searchStep cfg f it st).capped = false := rfl

@[simp] theorem cappedResult_store (st : RunState) : (cappedResult st).store = st.store := rfl

@[simp] theorem cappedResult_saves (st : RunState) : (cappedResult st).saves = st.saves := rfl

@[simp] theorem cappedResult_storeAfterPass1 (st : RunState) :
    (cappedResult st).storeAfterPass1 = st.store := rfl

@[simp] theorem cappedResult_processed1 (st : RunState) :
    (cappedResult st).processed1 = st.processed := rfl

@[simp] theorem cappedResult_searchCalls (st : RunState) :
    (cappedResult st).searchCalls = st.calls := rfl

@[simp] theorem cappedResult_retried (st : RunState) : (cappedResult st).retried = 0 := rfl

@[simp] theorem cappedResult_capped (st : RunState) : (cappedResult st).capped = true := rfl

@[simp] theorem finalizeRun_store (st1 : RunState) (st2 : RetrySt) :
    (finalizeRun st1 st2).store = cleanup_nulls st2.store := rfl

@[simp] theorem finalizeRun_storeAfterPass1 (st1 : RunState) (st2 : RetrySt) :
    (finalizeRun st1 st2).storeAfterPass1 = st1.store := rfl

@[simp] theorem finalizeRun_processed1 (st1 : RunState) (st2 : RetrySt) :
    (finalizeRun st1 st2).processed1 = st1.processed := rfl

@[simp] theorem finalizeRun_searchCalls (st1 : RunState) (st2 : RetrySt) :
    (finalizeRun st1 st2).searchCalls = st2.calls := rfl

@[simp] theorem finalizeRun_retried (st1 : RunState) (st2 : RetrySt) :
    (finalizeRun st1 st2).retried = st2.retried := rfl

@[simp] theorem finalizeRun_capped (st1 : RunState) (st2 : RetrySt) :
    (finalizeRun st1 st2).capped = false := rfl

theorem countNulls_cleanup (s : Store) : countNulls (cleanup_nulls s) = 0 := by
  induction s with
  | nil => rfl
  | cons p s ih =>
      by_cases h : p.2.isNone
      · rw [cleanup_nulls, List.filter_cons_of_neg (by simp [h])]
        exact ih
      · rw [cleanup_nulls, List.filter_cons_of_pos (by simp [h]), countNulls,
          List.filter_cons_of_neg (by simp [h])]
        exact ih

theorem cleanup_eq_self (s : Store) (h : countNulls s = 0) : cleanup_nulls s = s := by
  rw [cleanup_nulls, List.filter_eq_self]
  intro a ha
  have hnil : s.filter (fun p => p.2.isNone) = [] := List.length_eq_zero.mp h
  have := List.filter_eq_nil_iff.mp hnil a ha
  simpa [Option.isSome_iff_ne_none] using this

theorem nullKeys_length (s : Store) : (nullKeysOf s).length = countNulls s := by
  simp [nullKeysOf, countNulls]

theorem nullKeys_nil_iff (s : Store) : nullKeysOf s = [] ↔ countNulls s = 0 := by
  rw [← nullKeys_length, List.length_eq_zero]

theorem hasKey_dictSet_false (s : Store) (k : Str) (v : Option Record) (q : Str)
    (h1 : hasKey s q = false) (h2 : ¬ q = k) : hasKey (dictSet s k v) q = false := by
  induction s with
  | nil =>
      simp [dictSet, hasKey]
      exact fun hh => h2 hh.symm
  | cons p s ih =>
      rw [hasKey, List.any_cons, Bool.or_eq_false_iff] at h1
      obtain ⟨hp, hs⟩ := h1
      rw [dictSet]
      by_cases hk : p.1 = k
      · rw [if_pos hk, hasKey, List.any_cons]
        have hkq : decide ((k, v).1 = q) = false := by
          simp
          exact fun hh => h2 hh.symm
        rw [hkq, Bool.false_or]
        exact hs
      · rw [if_neg hk, hasKey, List.any_cons, hp, Bool.false_or]
        exact ih hs

theorem pass1_processed_le (cfg : Config) (f : SearchFn) :
    ∀ (items : List Item) (st : RunState),
      st.processed ≤ (pass1 cfg f items st).processed := by
  intro items
  induction items with
  | nil => intro st; exact le_refl _
  | cons it rest ih =>
      intro st
      rw [pass1]
      by_cases h1 : st.capped = true
      · rw [if_pos h1]
      · rw [if_neg h1]
        by_cases h2 : hasKey st.store (keyOf it) = true
        · rw [if_pos h2]; exact ih st
        · rw [if_neg h2]
          by_cases h3 : cfg.cap ≤ st.processed
          · rw [if_pos h3]
            simp
          · rw [if_neg h3]
            have := ih (searchStep cfg f it st)
            simp only [searchStep_processed] at this
            omega

theorem pass1_frozen (cfg : Config) (f : SearchFn) :
    ∀ (items : List Item) (st : RunState), st.capped = false →
      (pass1 cfg f items st).capped = false →
      (pass1 cfg f items st).processed = st.processed →
      pass1 cfg f items st = st := by
  intro items
  induction items with
  | nil => intro st _ _ _; rfl
  | cons it rest ih =>
      intro st h0 hc hp
      rw [pass1, if_neg (by simp [h0])] at hc hp ⊢
      by_cases h2 : hasKey st.store (keyOf it) = true
      · rw [if_pos h2] at hc hp ⊢
        exact ih st h0 hc hp
      · rw [if_neg h2] at hc hp ⊢
        by_cases h3 : cfg.cap ≤ st.processed
        · rw [if_pos h3] at hc
          exact absurd hc (by simp)
        · rw [if_neg h3] at hc hp
          exfalso
          have hmono := pass1_processed_le cfg f rest (searchStep cfg f it st)
          simp only [searchStep_processed] at hmono
          omega

theorem pass1_cap_invariants (cfg : Config) (f : SearchFn) :
    ∀ (items : List Item) (st : RunState), st.capped = false →
      (pass1 cfg f items st).capped = true →
      countNulls (pass1 cfg f items st).store = 0 ∧
        ∃ s, (pass1 cfg f items st).saves.getLast? = some s ∧ countNulls s = 0 := by
  intro items
  induction items with
  | nil =>
      intro st h0 hc
      rw [pass1] at hc
      exact absurd hc (by simp [h0])
  | cons it rest ih =>
      intro st h0 hc
      rw [pass1, if_neg (by simp [h0])] at hc ⊢
      by_cases h2 : hasKey st.store (keyOf it) = true
      · rw [if_pos h2] at hc ⊢
        exact ih st h0 hc
      · rw [if_neg h2] at hc ⊢
        by_cases h3 : cfg.cap ≤ st.processed
        · rw [if_pos h3]
          refine ⟨by simp [countNulls_cleanup], ?_⟩
          by_cases h4 : 0 < countNulls st.store
          · refine ⟨cleanup_nulls st.store, ?_, countNulls_cleanup _⟩
            rw [capExit]
            simp only [if_pos h4, ← List.append_assoc]
            exact getLast?_append_single _ _
          · refine ⟨st.store, ?_, by omega⟩
            rw [capExit]
            simp only [if_neg h4, List.append_nil]
            exact getLast?_append_single _ _
        · rw [if_neg h3] at hc ⊢
          exact ih (searchStep cfg f it st) (searchStep_capped cfg f it st) hc

theorem pass1_cap_exact (cfg : Config) (f : SearchFn) :
    ∀ (items : List Item) (st : RunState), st.capped = false →
      (∀ it ∈ items, hasKey st.store (keyOf it) = false) →
      (items.map keyOf).Nodup →
      st.processed ≤ cfg.cap → cfg.cap < st.processed + items.length →
      (pass1 cfg f items st).calls = st.calls + (cfg.cap - st.processed) ∧
        (pass1 cfg f items st).capped = true := by
  intro items
  induction items with
  | nil =>
      intro st _ _ _ hle hgt
      simp only [List.length_nil, Nat.add_zero] at hgt
      omega
  | cons it rest ih =>
      intro st h0 hfresh hnd hle hgt
      rw [pass1, if_neg (by simp [h0]),
        if_neg (by simp [hfresh it (List.mem_cons_self it rest)])]
      by_cases h3 : cfg.cap ≤ st.processed
      · rw [if_pos h3]
        refine ⟨?_, by simp⟩
        simp
        omega
      · rw [if_neg h3]
        have hfresh2 : ∀ it2 ∈ rest,
            hasKey (searchStep cfg f it st).store (keyOf it2) = false := by
          intro it2 hit
          have hne : ¬ keyOf it2 = keyOf it := by
            intro hh
            exact (List.nodup_cons.mp hnd).1 (hh ▸ List.mem_map_of_mem keyOf hit)
          have hfs := hfresh it2 (List.mem_cons_of_mem _ hit)
          simpa [searchStep] using
            hasKey_dictSet_false st.store (keyOf it) _ (keyOf it2) hfs hne
        have hlen : cfg.cap < (searchStep cfg f it st).processed + rest.length := by
          simp only [searchStep_processed]
          simp only [List.length_cons] at hgt
          omega
        obtain ⟨ihc, ihcap⟩ := ih (searchStep cfg f it st) (searchStep_capped cfg f it st)
          hfresh2 (List.nodup_cons.mp hnd).2 (by simp only [searchStep_processed]; omega) hlen
        refine ⟨?_, ihcap⟩
        rw [ihc]
        simp only [searchStep_calls, searchStep_processed]
        omega

theorem pass1_skips (cfg : Config) (f : SearchFn) :
    ∀ (items : List Item) (st : RunState),
      (∀ it ∈ items, hasKey st.store (keyOf it) = true) →
      pass1 cfg f items st = st := by
  intro items
  induction items with
  | nil => intro st _; rfl
  | cons it rest ih =>
      intro st hall
      rw [pass1]
      by_cases h1 : st.capped = true
      · rw [if_pos h1]
      · rw [if_neg h1, if_pos (hall it (List.mem_cons_self it rest))]
        exact ih st (fun it2 h => hall it2 (List.mem_cons_of_mem _ h))

theorem retryLoop_retried (cfg : Config) (f : SearchFn) (md : Metadata) :
    ∀ (keys : List Str) (st : RetrySt),
      (retryLoop cfg f md keys st).retried = st.retried + keys.length := by
  intro keys
  induction keys with
  | nil => intro st; simp [retryLoop]
  | cons k rest ih =>
      intro st
      rw [retryLoop, ih]
      simp
      omega

theorem pass2_retried_eq (cfg : Config) (f : SearchFn) (md : Metadata) (total : Nat)
    (st1 : RunState) (htot : total ≤ st1.store.length) :
    (pass2Run cfg f md total st1).retried =
      min (min (countNulls st1.store) (cfg.cap - st1.processed)) cfg.maxNullRetries := by
  simp only [pass2Run]
  by_cases hg : nullKeysOf st1.store = [] ∨ st1.store.length < total ∨
      min (min (nullKeysOf st1.store).length (cfg.cap - st1.processed)) cfg.maxNullRetries = 0
  · rw [if_pos hg]
    rcases hg with hnk | hlt | hmin
    · have := (nullKeys_nil_iff st1.store).mp hnk
      simp [this]
    · omega
    · rw [← nullKeys_length]
      simpa using hmin.symm
  · rw [if_neg hg]
    have hr := retryLoop_retried cfg f md
      ((nullKeysOf st1.store).take
        (min (min (nullKeysOf st1.store).length (cfg.cap - st1.processed)) cfg.maxNullRetries))
      ⟨st1.store, st1.processed, st1.calls, afterPass1Saves st1, 0, 0⟩
    simp only [] at hr ⊢
    rw [hr, List.length_take, ← nullKeys_length]
    omega

theorem pass2_retried_pos_total (cfg : Config) (f : SearchFn) (md : Metadata) (total : Nat)
    (st1 : RunState) (h : 0 < (pass2Run cfg f md total st1).retried) :
    total ≤ st1.store.length := by
  by_contra hlt
  push_neg at hlt
  have hbase : pass2Run cfg f md total st1 =
      ⟨st1.store, st1.processed, st1.calls, afterPass1Saves st1, 0, 0⟩ := by
    simp only [pass2Run]
    rw [if_pos (Or.inr (Or.inl hlt))]
  rw [hbase] at h
  simp at h

theorem finalize_pass2_clean (cfg : Config) (f : SearchFn) (md : Metadata) (total : Nat)
    (st1 : RunState) (store0 : Store)
    (hfroz : st1.processed = 0 → st1.store = store0 ∧ st1.saves = []) :
    countNulls (finalDisk (finalizeRun st1 (pass2Run cfg f md total st1)) store0) = 0 := by
  rw [finalDisk]
  by_cases hr : 0 < countNulls (pass2Run cfg f md total st1).store
  · have : (finalizeRun st1 (pass2Run cfg f md total st1)).saves =
        (pass2Run cfg f md total st1).saves ++
          [cleanup_nulls (pass2Run cfg f md total st1).store] := by
      rw [finalizeRun]
      simp only [if_pos hr]
    rw [this, getLast?_append_single]
    simp [countNulls_cleanup]
  · have h2 : countNulls (pass2Run cfg f md total st1).store = 0 := by omega
    have hsv : (finalizeRun st1 (pass2Run cfg f md total st1)).saves =
        (pass2Run cfg f md total st1).saves := by
      rw [finalizeRun]
      simp only [if_neg hr]
    rw [hsv]
    simp only [pass2Run] at h2 ⊢
    by_cases hg : nullKeysOf st1.store = [] ∨ st1.store.length < total ∨
        min (min (nullKeysOf st1.store).length (cfg.cap - st1.processed)) cfg.maxNullRetries = 0
    · rw [if_pos hg] at h2 ⊢
      simp only [] at h2 ⊢
      rw [afterPass1Saves]
      by_cases hp : 0 < st1.processed
      · rw [if_pos hp, getLast?_append_single]
        simpa using h2
      · rw [if_neg hp]
        obtain ⟨hs0, hsv1⟩ := hfroz (by omega)
        rw [hsv1]
        simp only [List.getLast?_nil, Option.getD_none]
        rw [← hs0]
        exact h2
    · rw [if_neg hg] at h2 ⊢
      simp only [] at h2 ⊢
      rw [getLast?_append_single]
      exact h2

/-- C1: after the final persistence of any run — normal completion or the
per-run cap path — the store on disk contains no null/unresolved entry:
`cleanup_nulls` runs before (or renders redundant) the terminal
`save_and_commit`. -/
theorem c1_purge_invariant (cfg : Config) (f : SearchFn) (md : Metadata) (store0 : Store) :
    countNulls (finalDisk (mainRun cfg f md store0) store0) = 0 := by
  simp only [mainRun]
  split
  case isTrue hc =>
    obtain ⟨hstore, s, hlast, hcleanS⟩ :=
      pass1_cap_invariants cfg f (validTracks md) ⟨store0, 0, 0, 0, [], false⟩ rfl hc
    rw [finalDisk, cappedResult_saves, hlast]
    simpa using hcleanS
  case isFalse hc =>
    refine finalize_pass2_clean cfg f md (totalTracks md) _ store0 (fun hp => ?_)
    have := pass1_frozen cfg f (validTracks md) ⟨store0, 0, 0, 0, [], false⟩ rfl
      (by simpa using hc) hp
    exact ⟨by rw [this], by rw [this]⟩

/-- C4: the null-retry pass runs only when `len(store) >= total_tracks`, and
given that guard it attempts exactly
`min(k, cap - processed, MAX_NULL_RETRIES_PER_RUN)` of the k null keys. -/
theorem c4_null_retry_gating (cfg : Config) (f : SearchFn) (md : Metadata) (store0 : Store) :
    (0 < (mainRun cfg f md store0).retried →
      totalTracks md ≤ (mainRun cfg f md store0).storeAfterPass1.length) ∧
    (totalTracks md ≤ (mainRun cfg f md store0).storeAfterPass1.length →
      (mainRun cfg f md store0).retried =
        min (min (countNulls (mainRun cfg f md store0).storeAfterPass1)
          (cfg.cap - (mainRun cfg f md store0).processed1)) cfg.maxNullRetries) := by
  simp only [mainRun]
  split
  case isTrue hc =>
    obtain ⟨hstore, -⟩ :=
      pass1_cap_invariants cfg f (validTracks md) ⟨store0, 0, 0, 0, [], false⟩ rfl hc
    constructor
    · intro h
      simp at h
    · intro htot
      simp [hstore]
  case isFalse hc =>
    constructor
    · intro hret
      simp only [finalizeRun_retried] at hret
      have := pass2_retried_pos_total cfg f md (totalTracks md) _ hret
      simpa using this
    · intro htot
      simp only [finalizeRun_storeAfterPass1] at htot
      simp only [finalizeRun_retried, finalizeRun_storeAfterPass1, finalizeRun_processed1]
      exact pass2_retried_eq cfg f md (totalTracks md) _ htot

/-- C4 witness: a store already covering a one-track domain with one null
entry; exactly min(1, cap, MAX_NULL_RETRIES) = 1 retry is attempted. -/
theorem c4_witness :
    (totalTracks [⟨str "a", str "T", [str "t"]⟩] ≤
      (mainRun {} (fun _ _ _ _ => none) [⟨str "a", str "T", [str "t"]⟩]
        [(str "a|t", none)]).storeAfterPass1.length) ∧
    (mainRun {} (fun _ _ _ _ => none) [⟨str "a", str "T", [str "t"]⟩]
        [(str "a|t", none)]).retried =
      min (min (countNulls (mainRun {} (fun _ _ _ _ => none) [⟨str "a", str "T", [str "t"]⟩]
          [(str "a|t", none)]).storeAfterPass1)
        (({} : Config).cap -
          (mainRun {} (fun _ _ _ _ => none) [⟨str "a", str "T", [str "t"]⟩]
            [(str "a|t", none)]).processed1)) ({} : Config).maxNullRetries :=
  ⟨(c4_null_retry_gating {} (fun _ _ _ _ => none) [⟨str "a", str "T", [str "t"]⟩]
      [(str "a|t", none)]).1 (by decide),
   (c4_null_retry_gating {} (fun _ _ _ _ => none) [⟨str "a", str "T", [str "t"]⟩]
      [(str "a|t", none)]).2 (by decide)⟩

/-! ## C6: idempotence on a fully-resolved store -/

/-- C6 counterexample: the claim requires only that every domain key is
present and resolved.  With one extra null entry under a key outside the
domain, the run still performs a network search (the null-retry pass picks
the foreign null key up), refuting "zero network search calls". -/
theorem c6_counterexample :
    ((validTracks [⟨str "a", str "T", [str "t"]⟩]).all
      (fun it => ((dictGet [(str "a|t", some (mkRecord (str "a") (str "t") (str "T") (str "v"))),
          (str "x|y", none)] (keyOf it)).getD none).isSome) = true) ∧
    (mainRun {} (fun _ _ _ _ => none) [⟨str "a", str "T", [str "t"]⟩]
      [(str "a|t", some (mkRecord (str "a") (str "t") (str "T") (str "v"))),
       (str "x|y", none)]).searchCalls = 1 := by decide

/-- C6 (amended): if every (artist, track) key of the domain is present in
the store at start AND the store contains no null entries at all (the
spec's "pre-populated store containing only Resolved entries"), the run
performs zero search calls, never saves (so the file is untouched,
trivially byte-identical), and ends with the store unchanged. -/
theorem c6_idempotent (cfg : Config) (f : SearchFn) (md : Metadata) (store0 : Store)
    (hres : ∀ it ∈ validTracks md, hasKey store0 (keyOf it) = true)
    (hclean : countNulls store0 = 0) :
    (mainRun cfg f md store0).searchCalls = 0 ∧ (mainRun cfg f md store0).saves = [] ∧
      (mainRun cfg f md store0).store = store0 := by
  have hs : pass1 cfg f (validTracks md) ⟨store0, 0, 0, 0, [], false⟩ =
      ⟨store0, 0, 0, 0, [], false⟩ := pass1_skips cfg f (validTracks md) _ hres
  simp only [mainRun, hs]
  rw [if_neg (by simp)]
  have hp2 : pass2Run cfg f md (totalTracks md) ⟨store0, 0, 0, 0, [], false⟩ =
      ⟨store0, 0, 0, afterPass1Saves ⟨store0, 0, 0, 0, [], false⟩, 0, 0⟩ := by
    simp only [pass2Run]
    rw [if_pos (Or.inl ((nullKeys_nil_iff store0).mpr hclean))]
  rw [hp2]
  have hap : afterPass1Saves ⟨store0, 0, 0, 0, [], false⟩ = ([] : List Store) := by
    simp [afterPass1Saves]
  refine ⟨rfl, ?_, ?_⟩
  · rw [finalizeRun]
    simp [hclean, hap]
  · simp [cleanup_eq_self store0 hclean]

/-- C6 amended-claim witness: a one-track domain whose key is resolved in a
null-free store. -/
theorem c6_witness :
    (mainRun {} (fun _ _ _ _ => none) [⟨str "a", str "T", [str "t"]⟩]
      [(str "a|t", some (mkRecord (str "a") (str "t") (str "T") (str "v")))]).searchCalls = 0 ∧
    (mainRun {} (fun _ _ _ _ => none) [⟨str "a", str "T", [str "t"]⟩]
      [(str "a|t", some (mkRecord (str "a") (str "t") (str "T") (str "v")))]).saves = [] ∧
    (mainRun {} (fun _ _ _ _ => none) [⟨str "a", str "T", [str "t"]⟩]
        [(str "a|t", some (mkRecord (str "a") (str "t") (str "T") (str "v")))]).store =
      [(str "a|t", some (mkRecord (str "a") (str "t") (str "T") (str "v")))] :=
  c6_idempotent {} (fun _ _ _ _ => none) [⟨str "a", str "T", [str "t"]⟩]
    [(str "a|t", some (mkRecord (str "a") (str "t") (str "T") (str "v")))]
    (by decide) (by decide)

/-! ## C7: cap enforcement in pass 1 -/

/-- C7: with an empty initial store and more (pairwise-distinct) valid
tracks than the per-run cap, pass 1 performs exactly `cap` search calls,
takes the cap exit (returning without touching the remaining tracks), and
has saved a checkpoint. -/
theorem c7_cap_enforcement (cfg : Config) (f : SearchFn) (md : Metadata)
    (hnd : ((validTracks md).map keyOf).Nodup)
    (hlen : cfg.cap < (validTracks md).length) :
    (mainRun cfg f md []).searchCalls = cfg.cap ∧ (mainRun cfg f md []).capped = true ∧
      (mainRun cfg f md []).saves ≠ [] := by
  obtain ⟨hcalls, hcap⟩ := pass1_cap_exact cfg f (validTracks md) ⟨[], 0, 0, 0, [], false⟩
    rfl (fun it _ => rfl) hnd (Nat.zero_le _) (by simpa using hlen)
  obtain ⟨-, s, hlast, -⟩ :=
    pass1_cap_invariants cfg f (validTracks md) ⟨[], 0, 0, 0, [], false⟩ rfl hcap
  simp only [mainRun]
  rw [if_pos hcap]
  refine ⟨?_, rfl, ?_⟩
  · rw [cappedResult_searchCalls, hcalls]
    simp
  · intro hnil
    rw [cappedResult_saves] at hnil
    rw [hnil] at hlast
    exact Option.noConfusion hlast

/-- C7 witness: the spec's own example — cap 5, a 20-track domain, no
pre-existing entries: exactly 5 search calls, then the cap exit. -/
theorem c7_witness :
    (mainRun ⟨1000, 5, 2000⟩ (fun _ _ _ _ => some (str "v"))
      [⟨str "ar", str "Al", [str "a", str "b", str "c", str "d", str "e", str "f", str "g",
        str "h", str "i", str "j", str "k", str "l", str "m", str "n", str "o", str "p",
        str "q", str "r", str "s", str "t"]⟩] []).searchCalls = 5 ∧
    (mainRun ⟨1000, 5, 2000⟩ (fun _ _ _ _ => some (str "v"))
      [⟨str "ar", str "Al", [str "a", str "b", str "c", str "d", str "e", str "f", str "g",
        str "h", str "i", str "j", str "k", str "l", str "m", str "n", str "o", str "p",
        str "q", str "r", str "s", str "t"]⟩] []).capped = true ∧
    (mainRun ⟨1000, 5, 2000⟩ (fun _ _ _ _ => some (str "v"))
      [⟨str "ar", str "Al", [str "a", str "b", str "c", str "d", str "e", str "f", str "g",
        str "h", str "i", str "j", str "k", str "l", str "m", str "n", str "o", str "p",
        str "q", str "r", str "s", str "t"]⟩] []).saves ≠ [] :=
  c7_cap_enforcement ⟨1000, 5, 2000⟩ (fun _ _ _ _ => some (str "v"))
    [⟨str "ar", str "Al", [str "a", str "b", str "c", str "d", str "e", str "f", str "g",
      str "h", str "i", str "j", str "k", str "l", str "m", str "n", str "o", str "p",
      str "q", str "r", str "s", str "t"]⟩] (by decide) (by decide)

/-! ## C9: confidence bounds -/

theorem vdm_first_bounds (sim : Str → Str → ℚ) (uploads albums tracks : List Str) :
    0 ≤ (validate_discography_match sim uploads albums tracks).1 ∧
      (validate_discography_match sim uploads albums tracks).1 ≤ 100 := by
  rw [validate_discography_match]
  split
  · norm_num
  · split
    · norm_num
    · rename_i hne hk
      constructor
      · refine le_min (by norm_num) ?_
        have hm : (0 : ℚ) ≤ total_matched_of sim uploads albums tracks := by
          rw [total_matched_of]
          positivity
        have hk0 : (0 : ℚ) ≤ total_known_of albums tracks := by
          rw [total_known_of]
          positivity
        have hkpos : (0 : ℚ) < total_known_of albums tracks := by
          rcases lt_or_eq_of_le hk0 with h | h
          · exact h
          · exact absurd h.symm hk
        positivity
      · exact min_le_left _ _

theorem pyRound1_bounds (x : ℚ) (h0 : 0 ≤ x) (h1 : x ≤ 100) :
    0 ≤ pyRound1 x ∧ pyRound1 x ≤ 100 := by
  rw [pyRound1]
  have hl : (0 : ℤ) ≤ ⌊x * 10 + 1 / 2⌋ := by
    rw [Int.le_floor]
    push_cast
    linarith
  have hlq : (0 : ℚ) ≤ (⌊x * 10 + 1 / 2⌋ : ℚ) := by exact_mod_cast hl
  have hf : (⌊x * 10 + 1 / 2⌋ : ℚ) ≤ x * 10 + 1 / 2 := Int.floor_le _
  have hlt : (⌊x * 10 + 1 / 2⌋ : ℚ) < 1001 := by linarith
  have hz : ⌊x * 10 + 1 / 2⌋ < (1001 : ℤ) := by exact_mod_cast hlt
  have hz2 : (⌊x * 10 + 1 / 2⌋ : ℚ) ≤ 1000 := by
    have h1000 : ⌊x * 10 + 1 / 2⌋ ≤ (1000 : ℤ) := by omega
    exact_mod_cast h1000
  constructor
  · linarith
  · linarith

/-- C9: given a similarity ratio in [0, 1] (difflib's ratio contract) and
the discography score actually produced by `validate_discography_match`,
the name component is at most 60, the discography component at most 40,
and the rounded total confidence lies in [0, 100]. -/
theorem c9_confidence_bounds (sim : Str → Str → ℚ) (artist_name channel_name : Str)
    (uploads albums tracks : List Str)
    (h0 : 0 ≤ sim artist_name channel_name) (h1 : sim artist_name channel_name ≤ 1) :
    name_score (sim artist_name channel_name) ≤ 60 ∧
    disco_score (validate_discography_match sim uploads albums tracks).1 ≤ 40 ∧
    0 ≤ (calculate_confidence sim artist_name channel_name
        (validate_discography_match sim uploads albums tracks).1
        (validate_discography_match sim uploads albums tracks).2).total ∧
    (calculate_confidence sim artist_name channel_name
        (validate_discography_match sim uploads albums tracks).1
        (validate_discography_match sim uploads albums tracks).2).total ≤ 100 := by
  obtain ⟨hd0, hd1⟩ := vdm_first_bounds sim uploads albums tracks
  have hns0 : 0 ≤ name_score (sim artist_name channel_name) := by
    rw [name_score]; positivity
  have hns1 : name_score (sim artist_name channel_name) ≤ 60 := by
    rw [name_score]; nlinarith
  have hds0 : 0 ≤ disco_score (validate_discography_match sim uploads albums tracks).1 := by
    rw [disco_score]; positivity
  have hds1 : disco_score (validate_discography_match sim uploads albums tracks).1 ≤ 40 := by
    rw [disco_score]; nlinarith
  have hb0 : 0 ≤ bonus_total (sim artist_name channel_name)
      (name_score (sim artist_name channel_name) +
        disco_score (validate_discography_match sim uploads albums tracks).1)
      (validate_discography_match sim uploads albums tracks).2 := by
    rw [bonus_total]
    split
    · exact le_min (by norm_num) (by linarith)
    · split
      · exact le_min (by norm_num) (by linarith)
      · linarith
  have hb1 : bonus_total (sim artist_name channel_name)
      (name_score (sim artist_name channel_name) +
        disco_score (validate_discography_match sim uploads albums tracks).1)
      (validate_discography_match sim uploads albums tracks).2 ≤ 100 := by
    rw [bonus_total]
    split
    · exact min_le_left _ _
    · split
      · exact min_le_left _ _
      · linarith
  have hbb := pyRound1_bounds _ hb0 hb1
  refine ⟨hns1, hds1, ?_, ?_⟩
  · rw [calculate_confidence]
    exact hbb.1
  · rw [calculate_confidence]
    exact hbb.2

/-- C9 witness: a concrete similarity oracle with ratio 1/2. -/
theorem c9_witness :
    name_score ((fun (_ _ : Str) => (1 : ℚ) / 2) (str "x") (str "y")) ≤ 60 ∧
    disco_score (validate_discography_match (fun _ _ => (1 : ℚ) / 2) [str "A"] [str "A"] []).1 ≤ 40 ∧
    0 ≤ (calculate_confidence (fun _ _ => (1 : ℚ) / 2) (str "x") (str "y")
        (validate_discography_match (fun _ _ => (1 : ℚ) / 2) [str "A"] [str "A"] []).1
        (validate_discography_match (fun _ _ => (1 : ℚ) / 2) [str "A"] [str "A"] []).2).total ∧
    (calculate_confidence (fun _ _ => (1 : ℚ) / 2) (str "x") (str "y")
        (validate_discography_match (fun _ _ => (1 : ℚ) / 2) [str "A"] [str "A"] []).1
        (validate_discography_match (fun _ _ => (1 : ℚ) / 2) [str "A"] [str "A"] []).2).total ≤ 100 :=
  c9_confidence_bounds (fun _ _ => (1 : ℚ) / 2) (str "x") (str "y") [str "A"] [str "A"] []
    (by norm_num) (by norm_num)

/-! ## C10: only confidence ≥ 70 reaches the verified outputs -/

theorem verifiedGo_mem_simple (sim : Str → Str → ℚ) (searchO : Str → List Candidate)
    (uploadsO : Str → List Str) :
    ∀ (l : List ArtistEntry) (acc : List SimpleEntry × List DetailedEntry)
      (e : SimpleEntry), e ∈ (verifiedGo sim searchO uploadsO l acc).1 →
      e ∈ acc.1 ∨ ∃ a ∈ l, a.name = e.name ∧
        ∃ r, process_artist sim searchO uploadsO a.name a.albums a.tracks = some r ∧
          (70 : ℚ) ≤ r.confidence.total ∧ e.id = r.channelId := by
  intro l
  induction l with
  | nil => intro acc e he; exact Or.inl he
  | cons a rest ih =>
      intro acc e he
      rw [verifiedGo] at he
      rcases ih (verifiedStep sim searchO uploadsO acc a) e he with hacc | ⟨a2, ha2, hrest⟩
      · cases hp : process_artist sim searchO uploadsO a.name a.albums a.tracks with
        | none =>
            simp only [verifiedStep, hp] at hacc
            exact Or.inl hacc
        | some r =>
            simp only [verifiedStep, hp] at hacc
            by_cases h70 : (70 : ℚ) ≤ r.confidence.total
            · rw [if_pos h70] at hacc
              rcases List.mem_append.mp hacc with h | h
              · exact Or.inl h
              · rcases List.mem_singleton.mp h with rfl
                exact Or.inr ⟨a, List.mem_cons_self a rest, rfl, r, hp, h70, rfl⟩
            · rw [if_neg h70] at hacc
              exact Or.inl hacc
      · exact Or.inr ⟨a2, List.mem_cons_of_mem a ha2, hrest⟩

theorem verifiedGo_mem_detailed (sim : Str → Str → ℚ) (searchO : Str → List Candidate)
    (uploadsO : Str → List Str) :
    ∀ (l : List ArtistEntry) (acc : List SimpleEntry × List DetailedEntry)
      (e : DetailedEntry), e ∈ (verifiedGo sim searchO uploadsO l acc).2 →
      e ∈ acc.2 ∨ ∃ a ∈ l, a.name = e.name ∧
        ∃ r, process_artist sim searchO uploadsO a.name a.albums a.tracks = some r ∧
          (70 : ℚ) ≤ r.confidence.total ∧ e.id = r.channelId ∧
          e.confidence = r.confidence.total := by
  intro l
  induction l with
  | nil => intro acc e he; exact Or.inl he
  | cons a rest ih =>
      intro acc e he
      rw [verifiedGo] at he
      rcases ih (verifiedStep sim searchO uploadsO acc a) e he with hacc | ⟨a2, ha2, hrest⟩
      · cases hp : process_artist sim searchO uploadsO a.name a.albums a.tracks with
        | none =>
            simp only [verifiedStep, hp] at hacc
            exact Or.inl hacc
        | some r =>
            simp only [verifiedStep, hp] at hacc
            by_cases h70 : (70 : ℚ) ≤ r.confidence.total
            · rw [if_pos h70] at hacc
              rcases List.mem_append.mp hacc with h | h
              · exact Or.inl h
              · rcases List.mem_singleton.mp h with rfl
                exact Or.inr ⟨a, List.mem_cons_self a rest, rfl, r, hp, h70, rfl, rfl⟩
            · rw [if_neg h70] at hacc
              exact Or.inl hacc
      · exact Or.inr ⟨a2, List.mem_cons_of_mem a ha2, hrest⟩

/-- C10: every record of artists_verified.json and
artists_verified_detailed.json stems from an input artist whose
`process_artist` best candidate reached total confidence ≥ 70 (the detailed
record carrying exactly that total); consequently an artist with no
candidate or a best candidate below 70 appears in neither output. -/
theorem c10_verified_outputs_threshold (sim : Str → Str → ℚ)
    (searchO : Str → List Candidate) (uploadsO : Str → List Str)
    (disc : List ArtistEntry) :
    (∀ e ∈ (verifiedMain sim searchO uploadsO disc).1, ∃ a ∈ disc, a.name = e.name ∧
      ∃ r, process_artist sim searchO uploadsO a.name a.albums a.tracks = some r ∧
        (70 : ℚ) ≤ r.confidence.total ∧ e.id = r.channelId) ∧
    (∀ e ∈ (verifiedMain sim searchO uploadsO disc).2, ∃ a ∈ disc, a.name = e.name ∧
      ∃ r, process_artist sim searchO uploadsO a.name a.albums a.tracks = some r ∧
        (70 : ℚ) ≤ r.confidence.total ∧ e.id = r.channelId ∧
        e.confidence = r.confidence.total) := by
  constructor
  · intro e he
    rcases verifiedGo_mem_simple sim searchO uploadsO disc ([], []) e he with h | h
    · exact absurd h (List.not_mem_nil e)
    · exact h
  · intro e he
    rcases verifiedGo_mem_detailed sim searchO uploadsO disc ([], []) e he with h | h
    · exact absurd h (List.not_mem_nil e)
    · exact h

/-- C10 witness: a perfect-similarity candidate with one matching album
reaches confidence 100 and appears in the simple output; the theorem
applied to that emitted entry recovers the input artist and a best
candidate with total ≥ 70. -/
theorem c10_witness :
    ∃ a ∈ [ArtistEntry.mk (str "x") [str "A"] []],
      a.name = (SimpleEntry.mk (str "UC1") (str "x")).name ∧
      ∃ r, process_artist (fun _ _ => (1 : ℚ))
          (fun _ => [Candidate.mk (str "UC1") (str "x") 1]) (fun _ => [str "A"])
          a.name a.albums a.tracks = some r ∧
        (70 : ℚ) ≤ r.confidence.total ∧
        (SimpleEntry.mk (str "UC1") (str "x")).id = r.channelId :=
  (c10_verified_outputs_threshold (fun _ _ => (1 : ℚ))
      (fun _ => [Candidate.mk (str "UC1") (str "x") 1]) (fun _ => [str "A"])
      [ArtistEntry.mk (str "x") [str "A"] []]).1
    (SimpleEntry.mk (str "UC1") (str "x")) (by decide)

end Ytm
